import Mathlib

/-!
Verification development for a WhatsApp message-ingestion and media-relay
service (a FastAPI webhook server `webhook_server.py` plus a Streamlit
dashboard `app3.py`).

The Python code is shallowly embedded:

* JSON values are the inductive type `Json`; Python `dict.get`,
  truthiness, `str()`, and `x or y` are modelled by `Json.getD`,
  `Json.truthy`, `pyStr` and `pyOr`.  An operation that can raise a
  Python exception returns `Except PyErr _`.
* Python strings are Unicode; where byte-level behaviour matters
  (percent-encoding), a string is represented by its UTF-8 byte
  sequence, a `List Nat` of values `< 256`.
* The PostgreSQL tables are lists of rows; the `ORDER BY timestamp ASC`
  query is modelled as a relation (any permutation of the selected rows
  that is sorted by timestamp satisfies it), because SQL leaves the
  order of equal keys unspecified.
* Numbers are modelled as `Int` (no claim depends on fractional values),
  and `str.strip` / `str.upper` by `String.trim` / `String.toUpper`
  (ASCII-faithful; no claim involves non-ASCII case/space folding).
-/

/-- A JSON value, as produced by `request.json()`.  Object keys are
assumed distinct, as they are for JSON delivered by the provider. -/
inductive Json where
  | null : Json
  | bool : Bool → Json
  | num : Int → Json
  | str : String → Json
  | arr : List Json → Json
  | obj : List (String × Json) → Json

/-- Python exceptions that the embedded code can raise. -/
inductive PyErr where
  | attributeError : PyErr
  | typeError : PyErr
deriving DecidableEq, Repr

/-- Python truthiness of a JSON value: `None`, `False`, `0`, `""`, `[]`
and `\x7b\x7d` are falsy, everything else truthy. -/
def Json.truthy : Json → Bool
  | .null => false
  | .bool b => b
  | .num n => n != 0
  | .str s => s != ""
  | .arr xs => !xs.isEmpty
  | .obj kvs => !kvs.isEmpty

/-- Python `x or y`: `y` if `x` is falsy, else `x`. -/
def pyOr (x y : Json) : Json := if x.truthy then x else y

/-- Python `d.get(k, default)`: the value at `k` when `d` is a dict
(even when that value is `None`), the default when the key is absent,
and `AttributeError` when `d` is not a dict. -/
def Json.getD (j : Json) (k : String) (d : Json) : Except PyErr Json :=
  match j with
  | .obj kvs =>
    match kvs.lookup k with
    | some v => .ok v
    | none => .ok d
  | _ => .error .attributeError

mutual

/-- Python `repr` of a JSON value (string escaping is not modelled; no
claim inspects the repr of a composite value). -/
def pyRepr : Json → String
  | .null => "None"
  | .bool b => if b then "True" else "False"
  | .num n => toString n
  | .str s => "\x27" ++ s ++ "\x27"
  | .arr xs => "[" ++ pyReprList xs ++ "]"
  | .obj kvs => "\x7b" ++ pyReprKVs kvs ++ "\x7d"

def pyReprList : List Json → String
  | [] => ""
  | [x] => pyRepr x
  | x :: y :: xs => pyRepr x ++ ", " ++ pyReprList (y :: xs)

def pyReprKVs : List (String × Json) → String
  | [] => ""
  | [kv] => "\x27" ++ kv.1 ++ "\x27: " ++ pyRepr kv.2
  | kv :: kv2 :: xs =>
    "\x27" ++ kv.1 ++ "\x27: " ++ pyRepr kv.2 ++ ", " ++ pyReprKVs (kv2 :: xs)

end

/-- Python `str()` of a JSON value. -/
def pyStr : Json → String
  | .null => "None"
  | .bool b => if b then "True" else "False"
  | .num n => toString n
  | .str s => s
  | .arr xs => pyRepr (.arr xs)
  | .obj kvs => pyRepr (.obj kvs)

/-- Python `s.strip()` (ASCII whitespace; Python also strips a few
rarer whitespace code points no claim depends on). -/
def pyStrip (s : String) : String :=
  String.mk
    (((s.data.dropWhile Char.isWhitespace).reverse.dropWhile
      Char.isWhitespace).reverse)

/-- Python `s.upper()` (ASCII letters; structural so that it computes
definitionally, unlike `String.toUpper`). -/
def pyUpper (s : String) : String :=
  String.mk (s.data.map Char.toUpper)

/-- Python `s.lower()` (ASCII letters). -/
def pyLower (s : String) : String :=
  String.mk (s.data.map Char.toLower)

/-- Splitting worker, structurally recursive on a fuel bound (taken at
least the list length, so the `0` case is never reached): splits at
each non-overlapping occurrence of `sep`. -/
def splitOnFuel (sep : List Char) : Nat → List Char → List (List Char)
  | 0, l => [l]
  | _ + 1, [] => [[]]
  | fuel + 1, c :: t =>
    if sep.isPrefixOf (c :: t) ∧ sep ≠ [] then
      [] :: splitOnFuel sep fuel (List.drop sep.length (c :: t))
    else
      match splitOnFuel sep fuel t with
      | [] => [[c]]
      | h2 :: rest => (c :: h2) :: rest

/-- `splitOnL sep l` splits `l` at each non-overlapping occurrence of
`sep`, like `str.split` on a non-empty separator. -/
def splitOnL (sep l : List Char) : List (List Char) :=
  splitOnFuel sep l.length l

/-- String splitting via `splitOnL`. -/
def strSplitOn (s sep : String) : List String :=
  (splitOnL sep.data s.data).map String.mk

/-- Iterating a Python value with `for x in v`: lists yield their
elements, strings their characters, dicts their keys; other values raise
`TypeError`. -/
def pyIterate : Json → Except PyErr (List Json)
  | .arr xs => .ok xs
  | .str s => .ok (s.data.map fun c => .str (String.mk [c]))
  | .obj kvs => .ok (kvs.map fun kv => .str kv.1)
  | _ => .error .typeError

/-! ## `webhook_server.py` — the normalizer

`extract_media_id_from_url` parses the URL with `urllib.parse.urlparse`,
strips trailing slashes from its path and takes the last `/`-separated
segment; on a non-string argument `urlparse` raises inside the `try`
and the function returns its argument unchanged. -/

/-- The `path` component of `urllib.parse.urlparse`, modelled for
absolute `scheme://netloc/path?query#fragment` URLs and for scheme-less
strings (which are all path). -/
def urlPath (url : String) : String :=
  let noFrag := (strSplitOn url "#").headD ""
  let noQuery := (strSplitOn noFrag "?").headD ""
  match strSplitOn noQuery "://" with
  | _scheme :: r :: rs =>
    let after := String.intercalate "://" (r :: rs)
    match strSplitOn after "/" with
    | _netloc :: segs =>
      if segs.isEmpty then "" else "/" ++ String.intercalate "/" segs
    | [] => ""
  | _ => noQuery

/-- Python `s.rstrip("/")`. -/
def rstripSlashes (s : String) : String :=
  String.mk ((s.data.reverse.dropWhile fun c => c = '/').reverse)

/-- `extract_media_id_from_url` on a string URL:
`urlparse(url).path.rstrip("/").split("/")[-1]`. -/
def extract_media_id_from_url_str (url : String) : String :=
  (strSplitOn (rstripSlashes (urlPath url)) "/").getLastD ""

/-- `extract_media_id_from_url`: last path segment for a string, the
argument unchanged when `urlparse` raises on a non-string. -/
def extract_media_id_from_url : Json → Json
  | .str s => .str (extract_media_id_from_url_str s)
  | v => v

/-- The tuple returned by `parse_infobip_message`.  Fields that the
Python code does not force to `str` stay `Json` (e.g. a non-string
`text.body` is returned as-is). -/
structure Parsed where
  text : Json
  msg_type : String
  media_identifier : Json
  caption : Json
  sender : Json
  contact_name : Json

/-- The provider type tags recognised by the media branch. -/
def mediaTags : List String := ["IMAGE", "VIDEO", "DOCUMENT", "VOICE", "AUDIO"]

/-- `contact_name = msg.get("contact", {}).get("name", "").strip() or
sender` (raises when `contact` is not a dict or the name not a
string). -/
def contactNameOf (msg sender : Json) : Except PyErr Json :=
  match msg.getD "contact" (.obj []) with
  | .error e => .error e
  | .ok contact =>
    match contact.getD "name" (.str "") with
    | .error e => .error e
    | .ok (.str s) =>
      .ok (if pyStrip s != "" then Json.str (pyStrip s) else sender)
    | .ok _ => .error .attributeError

/-- `content = msg.get("message", {}) or {}`. -/
def contentOf (msg : Json) : Except PyErr Json :=
  match msg.getD "message" (.obj []) with
  | .error e => .error e
  | .ok m => .ok (pyOr m (.obj []))

/-- `str(content.get("type", "TEXT")).upper()` — the provider type tag
the dispatch branches on. -/
def typeTagOf (content : Json) : Except PyErr String :=
  match content.getD "type" (.str "TEXT") with
  | .error e => .error e
  | .ok typeJ => .ok (pyUpper (pyStr typeJ))

/-- The TEXT-branch body extraction: `t = content.get("text", "");
text = t.get("body","") if isinstance(t, dict) else str(t or "")`. -/
def textFrom (content : Json) : Except PyErr Json :=
  match content.getD "text" (.str "") with
  | .error e => .error e
  | .ok (.obj kvs) => (Json.obj kvs).getD "body" (.str "")
  | .ok t => .ok (.str (pyStr (pyOr t (.str ""))))

/-- The media-branch identifier resolution: `media_id =
content.get("mediaId") or content.get("id"); media_url =
content.get("url") or content.get("mediaUrl")`, then the explicit id
(as `str`), else the id derived from the URL, else `""`. -/
def mediaIdentifierFrom (content : Json) : Except PyErr Json :=
  match content.getD "mediaId" .null, content.getD "id" .null,
      content.getD "url" .null, content.getD "mediaUrl" .null with
  | .ok midA, .ok midB, .ok murlA, .ok murlB =>
    let media_id := pyOr midA midB
    let media_url := pyOr murlA murlB
    .ok (if media_id.truthy then Json.str (pyStr media_id)
      else if media_url.truthy then extract_media_id_from_url media_url
      else Json.str "")
  | _, _, _, _ => .error .attributeError

/-- `parse_infobip_message` from `webhook_server.py`, assembled from the
helpers above in source order.  Returns `.ok none` when the event has no
(truthy) `from`, `.ok (some _)` with the normalized tuple otherwise,
and `.error _` when the Python code would raise (e.g. `.get` or
`.strip` on a value of the wrong type). -/
def parse_infobip_message (msg : Json) : Except PyErr (Option Parsed) :=
  match msg.getD "from" .null with
  | .error e => .error e
  | .ok sender =>
    if !sender.truthy then .ok none
    else
      match contactNameOf msg sender with
      | .error e => .error e
      | .ok contact_name =>
        match contentOf msg with
        | .error e => .error e
        | .ok content =>
          match typeTagOf content with
          | .error e => .error e
          | .ok msg_type_raw =>
            if msg_type_raw = "TEXT" then
              match textFrom content with
              | .error e => .error e
              | .ok text =>
                .ok (some ⟨text, "text", .str "", .str "", sender,
                  contact_name⟩)
            else if msg_type_raw ∈ mediaTags then
              match content.getD "caption" (.str "") with
              | .error e => .error e
              | .ok capJ =>
                match mediaIdentifierFrom content with
                | .error e => .error e
                | .ok media_identifier =>
                  .ok (some ⟨.str "", pyLower msg_type_raw,
                    media_identifier, pyOr capJ (.str ""), sender,
                    contact_name⟩)
            else
              match textFrom content with
              | .error e => .error e
              | .ok text =>
                .ok (some ⟨text, "text", .str "", .str "", sender,
                  contact_name⟩)

/-! ## `webhook_server.py` — the `/whatsapp/inbound` endpoint

The endpoint parses the body inside a `try` (invalid JSON is a 400);
everything after the `try` runs unprotected, so any Python exception
raised there escapes the handler and FastAPI answers 500.  Database
writes are modelled as always succeeding (store availability is a
separate concern, settled by the store model below). -/

/-- The observable HTTP outcome of the endpoint. -/
inductive Response where
  | ok : Nat → Response
  | clientError : Nat → Response
  | serverError : PyErr → Response

/-- `results = payload.get("results", []) or payload.get("messages", [])`,
the empty-batch early return, and `for msg in results`, combined: the
list of events the handler will iterate over (`[]` for an empty or
missing batch), or the exception that resolving it raises. -/
def batchOf (payload : Json) : Except PyErr (List Json) :=
  match payload.getD "results" (.arr []) with
  | .error e => .error e
  | .ok r1 =>
    match payload.getD "messages" (.arr []) with
    | .error e => .error e
    | .ok r2 =>
      let results := pyOr r1 r2
      if !results.truthy then .ok []
      else pyIterate results

/-- The per-event loop of `inbound`: parse each event, skip it when the
normalizer returns nothing, count it otherwise; a normalizer exception
aborts the request (500). -/
def inboundLoop : List Json → Nat → Response
  | [], received => .ok received
  | msg :: rest, received =>
    match parse_infobip_message msg with
    | .error e => .serverError e
    | .ok none => inboundLoop rest received
    | .ok (some _) => inboundLoop rest (received + 1)

/-- The `inbound` handler on a successfully parsed JSON body. -/
def inboundValid (payload : Json) : Response :=
  match batchOf payload with
  | .error e => .serverError e
  | .ok msgs => inboundLoop msgs 0

/-- The `inbound` handler; `none` stands for a body that is not valid
JSON, rejected with 400 inside the `try`. -/
def inbound : Option Json → Response
  | none => .clientError 400
  | some payload => inboundValid payload

/-- `true` iff the normalizer accepts the event (returns a tuple rather
than skipping or raising); `inbound` counts exactly these events. -/
def parsedSome (msg : Json) : Bool :=
  match parse_infobip_message msg with
  | .ok (some _) => true
  | _ => false

/-! ## The store models (`app3.py` and `webhook_server.py`)

`app3.py` holds a global psycopg2 connection produced by
`get_db_connection`, a function memoised by `@st.cache_resource`: the
first call connects and caches the connection, later calls return the
cached object unchanged (until the sidebar button clears the cache).
`ensure_connection(conn)` probes `conn` with `SELECT 1` and, when the
probe fails, falls back to `get_db_connection()` — i.e. to the cached
resource.  `webhook_server.py` has no such probe: its `insert_message`
and `upsert_contact` use the connection they are handed directly.

A connection is modelled by whether it is alive; executing a statement
on a dead connection surfaces a stale-connection error. -/

structure Conn where
  alive : Bool
deriving DecidableEq, Repr

inductive StoreErr where
  | staleConnection : StoreErr
deriving DecidableEq, Repr

/-- `get_db_connection` under `@st.cache_resource`: returns the cached
connection when there is one, else establishes `fresh` and caches it.
Returns the connection paired with the new cache state. -/
def get_db_connection (cache : Option Conn) (fresh : Conn) : Conn × Option Conn :=
  match cache with
  | some c => (c, some c)
  | none => (fresh, some fresh)

/-- `ensure_connection` from `app3.py`: probe `conn`; on failure fall
back to `get_db_connection()`. -/
def ensure_connection (conn : Conn) (cache : Option Conn) (fresh : Conn) :
    Conn × Option Conn :=
  if conn.alive then (conn, cache) else get_db_connection cache fresh

/-- Executing a statement on a connection: fails iff the connection is
dead. -/
def execOn (c : Conn) : Except StoreErr Unit :=
  if c.alive then .ok () else .error .staleConnection

/-- Any of the four `app3.py` store operations (`fetch_messages`,
`fetch_contacts`, `insert_message`, `upsert_contact`), abstracted to its
connection handling: `conn = ensure_connection(conn)` followed by the
statement. -/
def app3_store_op (conn : Conn) (cache : Option Conn) (fresh : Conn) :
    Except StoreErr Unit :=
  execOn (ensure_connection conn cache fresh).1

/-- `insert_message` (equally `upsert_contact`) from `webhook_server.py`,
abstracted to its connection handling: the statement runs on the given
connection, with no probe and no reconnect. -/
def ws_store_op (conn : Conn) : Except StoreErr Unit :=
  execOn conn

/-! ## The messages table and `fetch_messages` (`app3.py`)

`fetch_messages` runs `SELECT * FROM messages ORDER BY timestamp ASC`
(with a `WHERE phone=%s` when a phone is selected).  SQL fixes the
multiset of returned rows and that they are sorted by `timestamp`, but
leaves the relative order of equal timestamps unspecified; the query is
therefore modelled as a postcondition relating table, argument and
result. -/

structure MsgRow where
  id : Nat
  phone : String
  message : String
  direction : String
  timestamp : Nat
  message_type : String
  media_link : String
  caption : String
deriving DecidableEq, Repr

/-- The rows selected by `fetch_messages conn phone`. -/
def selectedRows (table : List MsgRow) (phone : String) : List MsgRow :=
  if phone = "All" then table else table.filter fun r => r.phone == phone

/-- Postcondition of `fetch_messages`: `out` is one of the result lists
the query `SELECT ... ORDER BY timestamp ASC` may return — a permutation
of the selected rows that is sorted by `timestamp` (ties unordered). -/
def fetch_messages_post (table : List MsgRow) (phone : String)
    (out : List MsgRow) : Prop :=
  out.Perm (selectedRows table phone) ∧
  out.Pairwise fun a b => a.timestamp ≤ b.timestamp

instance (table : List MsgRow) (phone : String) (out : List MsgRow) :
    Decidable (fetch_messages_post table phone out) := by
  unfold fetch_messages_post
  exact instDecidableAnd

/-! ## The contacts table and `upsert_contact`

`INSERT INTO contacts (phone, name) VALUES (%s, %s) ON CONFLICT(phone)
DO UPDATE SET name=EXCLUDED.name` on a table whose `phone` column is
UNIQUE: update the name of the existing row if the phone is present, else
append a new row. -/

structure Contact where
  phone : String
  name : String
deriving DecidableEq, Repr

/-- `upsert_contact` (identical SQL in `webhook_server.py` and
`app3.py`), as a transformation of the contacts table. -/
def upsert_contact (table : List Contact) (phone name : String) :
    List Contact :=
  if table.any fun c => c.phone = phone then
    table.map fun c => if c.phone = phone then ⟨c.phone, name⟩ else c
  else
    table ++ [⟨phone, name⟩]

/-! ## Percent-encoding (`urllib.parse.quote_plus` / `unquote_plus`)

`quote_plus` encodes the UTF-8 bytes of its argument: ASCII letters,
digits and `_.-~` pass through, a space becomes `+`, every other byte
becomes `%XX` with uppercase hex.  `unquote_plus` first turns every `+`
into a space and then decodes each `%` followed by two hex digits into a
byte, leaving an ill-formed `%` literal.  Both are modelled on the
UTF-8 byte sequence (`List Nat`, bytes `< 256`); `strBytes` produces
that sequence from a Lean string and `asciiOfBytes` renders an
all-ASCII byte sequence (such as `quote_plus` output) back. -/

/-- UTF-8 encoding of one code point. -/
def utf8EncodeChar (c : Nat) : List Nat :=
  if c < 0x80 then [c]
  else if c < 0x800 then [0xC0 + c / 64, 0x80 + c % 64]
  else if c < 0x10000 then [0xE0 + c / 4096, 0x80 + c / 64 % 64, 0x80 + c % 64]
  else [0xF0 + c / 262144, 0x80 + c / 4096 % 64, 0x80 + c / 64 % 64, 0x80 + c % 64]

/-- The UTF-8 bytes of a string (how Python sees it in `quote_plus`). -/
def strBytes (s : String) : List Nat :=
  s.data.flatMap fun c => utf8EncodeChar c.toNat

/-- Render a list of ASCII bytes as a string. -/
def asciiOfBytes (bs : List Nat) : String :=
  String.mk (bs.map Char.ofNat)

/-- Bytes `quote_plus` passes through unencoded: ASCII alphanumerics and
`_`, `.`, `-`, `~`. -/
def isSafeByte (b : Nat) : Bool :=
  (48 ≤ b && b ≤ 57) || (65 ≤ b && b ≤ 90) || (97 ≤ b && b ≤ 122) ||
  b = 95 || b = 46 || b = 45 || b = 126

/-- Uppercase hex digit (as a byte) of a value `< 16`. -/
def hexDigit (n : Nat) : Nat := if n < 10 then 48 + n else 55 + n

/-- `quote_plus` on one byte. -/
def quoteByte (b : Nat) : List Nat :=
  if isSafeByte b then [b]
  else if b = 32 then [43]
  else [37, hexDigit (b / 16), hexDigit (b % 16)]

/-- `urllib.parse.quote_plus` at the byte level. -/
def quote_plus_bytes (bs : List Nat) : List Nat :=
  bs.flatMap quoteByte

/-- `urllib.parse.quote_plus` on a string. -/
def quote_plus (s : String) : String :=
  asciiOfBytes (quote_plus_bytes (strBytes s))

/-- Value of a hex-digit byte, accepting both cases (as Python does). -/
def hexVal (c : Nat) : Option Nat :=
  if 48 ≤ c ∧ c ≤ 57 then some (c - 48)
  else if 65 ≤ c ∧ c ≤ 70 then some (c - 55)
  else if 97 ≤ c ∧ c ≤ 102 then some (c - 87)
  else none

/-- Percent-decoding pass of `unquote`: each `%` followed by two hex
digits becomes the byte they denote; an ill-formed `%` stays literal. -/
def pctDecode : List Nat → List Nat
  | [] => []
  | 37 :: h1 :: h2 :: rest =>
    match hexVal h1, hexVal h2 with
    | some a, some b => (16 * a + b) :: pctDecode rest
    | _, _ => 37 :: pctDecode (h1 :: h2 :: rest)
  | c :: rest => c :: pctDecode rest
termination_by l => l.length
decreasing_by all_goals (simp [List.length_cons]; try omega)

/-- The `+`-to-space pass that `unquote_plus` runs first. -/
def plusToSpace (bs : List Nat) : List Nat :=
  bs.map fun c => if c = 43 then 32 else c

/-- `urllib.parse.unquote_plus` at the byte level: turn `+` into space,
then percent-decode. -/
def unquote_plus_bytes (bs : List Nat) : List Nat :=
  pctDecode (plusToSpace bs)

/-- `urllib.parse.unquote_plus` on a string whose percent-decoded bytes
are ASCII (always the case for `quote_plus` output of ASCII input; the
UTF-8 re-decoding Python performs on multi-byte output is not needed by
any theorem below, which work at the byte level). -/
def unquote_plus (s : String) : String :=
  asciiOfBytes (unquote_plus_bytes (s.data.map Char.toNat))

/-! ## `webhook_server.py` — the `/media-proxy/` endpoint

Configuration: `AUTH_HEADER` is `"App " + API_KEY` when `API_KEY` is a
non-empty string and `None` otherwise; the endpoint answers 500 before
any network activity when `AUTH_HEADER` or `SENDER_NUMBER` is missing.
The upstream `requests.get` is modelled as a function from the request
URL to an upstream behaviour; the result records whether an upstream
request was attempted at all. -/

structure ProxyConfig where
  api_key : Option String
  sender_number : Option String
deriving DecidableEq, Repr

/-- `AUTH_HEADER = f"App ..." if API_KEY else None`. -/
def authHeaderOf (cfg : ProxyConfig) : Option String :=
  match cfg.api_key with
  | some k => if k = "" then none else some ("App " ++ k)
  | none => none

/-- `not AUTH_HEADER or not SENDER_NUMBER`. -/
def proxyMisconfigured (cfg : ProxyConfig) : Bool :=
  (authHeaderOf cfg).isNone ||
    (match cfg.sender_number with
     | some s => s = ""
     | none => true)

/-- What the upstream `requests.get` does: the connection itself fails,
or the provider answers with a status, content type and body. -/
inductive Upstream where
  | connectFail : Upstream
  | respond : Nat → String → String → Upstream

/-- What the endpoint answers: an `HTTPException` with a status and
detail string, or a streamed body with the upstream content type. -/
inductive ProxyResult where
  | httpError : Nat → String → ProxyResult
  | stream : String → String → ProxyResult

def MEDIA_BASE_URL : String := "https://api.infobip.com"

/-- The provider media-fetch URL the endpoint builds. -/
def mediaUrlFor (sender media_id : String) : String :=
  MEDIA_BASE_URL ++ "/whatsapp/1/senders/" ++ sender ++ "/media/" ++ media_id

/-- The `/media-proxy/` endpooint `media_proxy` from `webhook_server.py`.
`upstream` models `requests.get` as a function of the URL; the boolean
in the result is `true` iff an upstream request was issued.  The
`detail` of the 502 drops the textual exception message, and streaming
is modelled as delivering the whole upstream body (chunking and
connection cleanup are real-time/resource behaviour outside this
embedding). -/
def media_proxy (cfg : ProxyConfig) (upstream : String → Upstream)
    (media_identifier : String) : Bool × ProxyResult :=
  if proxyMisconfigured cfg then
    (false, .httpError 500 "Media proxy misconfigured")
  else
    let sender := (cfg.sender_number).getD ""
    let media_id := unquote_plus media_identifier
    let url := mediaUrlFor sender media_id
    match upstream url with
    | .connectFail => (true, .httpError 502 "Error fetching media")
    | .respond status ctype body =>
      if status ≠ 200 then
        (true, .httpError status
          ("Infobip error: " ++ toString status ++ " " ++ body.take 500))
      else
        (true, .stream ctype body)

/-! ## `app3.py` — `build_proxy_url` -/

/-- Python `s.startswith(p)`: structural test on the character list
(`String.startsWith` itself does not reduce definitionally). -/
def pyStartsWith (s p : String) : Bool :=
  p.data.isPrefixOf s.data

/-- `build_proxy_url` from `app3.py` (`FASTAPI_PROXY_BASE`, an
environment value, is passed explicitly): empty identifier → empty
string; outbound direction or an identifier already starting with
`"http"` → returned verbatim; otherwise the identifier is
percent-encoded with `quote_plus` and routed through the proxy. -/
def build_proxy_url (base : String) (media_identifier : String)
    (direction : String) : String :=
  if media_identifier = "" then ""
  else if direction = "outbound" || pyStartsWith media_identifier "http" then
    media_identifier
  else
    base ++ "/media-proxy/" ++ quote_plus media_identifier

/-! ## Helper lemmas about `upsert_contact` -/

lemma upsert_contact_countP (table : List Contact) (p n : String)
    (h : table.countP (fun c => c.phone == p) ≤ 1) :
    (upsert_contact table p n).countP (fun c => c.phone == p) = 1 := by
  unfold upsert_contact
  by_cases hany : (table.any fun c => c.phone = p) = true
  · rw [if_pos hany]
    have hfun : ((fun c => c.phone == p) ∘
        (fun c => if c.phone = p then (⟨c.phone, n⟩ : Contact) else c)) =
        (fun c : Contact => c.phone == p) := by
      funext c
      by_cases hcp : c.phone = p <;> simp [Function.comp, hcp]
    rw [List.countP_map, hfun]
    have hex : ∃ c ∈ table, c.phone = p := by simpa using hany
    have hpos : 0 < table.countP (fun c => c.phone == p) := by
      rw [List.countP_pos_iff]
      rcases hex with ⟨c, hc, hcp⟩
      exact ⟨c, hc, by simpa using hcp⟩
    omega
  · rw [if_neg hany]
    have hany2 : ∀ x ∈ table, x.phone ≠ p := by simpa using hany
    have hzero : table.countP (fun c => c.phone == p) = 0 := by
      rw [List.countP_eq_zero]
      intro c hc
      simpa using hany2 c hc
    rw [List.countP_append, hzero]
    simp

lemma upsert_contact_name (table : List Contact) (p n : String) :
    ∀ c ∈ upsert_contact table p n, c.phone = p → c.name = n := by
  intro c hc hcp
  unfold upsert_contact at hc
  by_cases hany : (table.any fun c => c.phone = p) = true
  · rw [if_pos hany] at hc
    rcases List.mem_map.mp hc with ⟨c0, _, hc0⟩
    by_cases h0 : c0.phone = p
    · rw [if_pos h0] at hc0
      rw [← hc0]
    · rw [if_neg h0] at hc0
      exact absurd (hc0 ▸ hcp) h0
  · rw [if_neg hany] at hc
    have hany2 : ∀ x ∈ table, x.phone ≠ p := by simpa using hany
    rcases List.mem_append.mp hc with hc | hc
    · exact absurd hcp (hany2 c hc)
    · rw [List.mem_singleton] at hc
      rw [hc]

lemma upsert_contact_countP_le (table : List Contact) (p n : String)
    (h : table.countP (fun c => c.phone == p) ≤ 1) :
    (upsert_contact table p n).countP (fun c => c.phone == p) ≤ 1 :=
  le_of_eq (upsert_contact_countP table p n h)

/-- C8.  `upsert_contact` is idempotent with last-write-wins: starting
from any contacts table in which `phone` occurs at most once (the
UNIQUE constraint), a non-empty sequence of upserts for that phone
leaves exactly one row carrying the phone, and its name is the one from
the most recent call. -/
theorem upsert_contact_last_write_wins (table : List Contact)
    (phone : String) (names : List String) (hne : names ≠ [])
    (huniq : table.countP (fun c => c.phone == phone) ≤ 1) :
    ((names.foldl (fun t n => upsert_contact t phone n) table).countP
        (fun c => c.phone == phone) = 1) ∧
    (∀ c ∈ names.foldl (fun t n => upsert_contact t phone n) table,
        c.phone = phone → c.name = names.getLastD "") := by
  induction names generalizing table with
  | nil => exact absurd rfl hne
  | cons n rest ih =>
    by_cases hrest : rest = []
    · subst hrest
      simp only [List.foldl_cons, List.foldl_nil, List.getLastD_cons,
        List.getLastD_nil]
      exact ⟨upsert_contact_countP table phone n huniq,
        upsert_contact_name table phone n⟩
    · obtain ⟨h1, h2⟩ := ih (upsert_contact table phone n) hrest
        (upsert_contact_countP_le table phone n huniq)
      refine ⟨by simpa [List.foldl_cons] using h1, ?_⟩
      intro c hc hcp
      have hname := h2 c (by simpa [List.foldl_cons] using hc) hcp
      have hlast : (n :: rest).getLastD "" = rest.getLastD "" := by
        cases rest with
        | nil => exact absurd rfl hrest
        | cons m r2 => simp [List.getLastD_cons]
      rw [hlast]
      exact hname

/-- C8 witness: two upserts for one phone, starting from a table that
already holds that phone and one other contact. -/
theorem upsert_contact_last_write_wins_witness :
    (["Ada", "Beth"] : List String) ≠ [] ∧
    (([⟨"1555", "Old"⟩, ⟨"1666", "Eve"⟩] : List Contact).countP
        (fun c => c.phone == "1555") ≤ 1) ∧
    ((["Ada", "Beth"].foldl (fun t n => upsert_contact t "1555" n)
        [⟨"1555", "Old"⟩, ⟨"1666", "Eve"⟩]).countP
        (fun c => c.phone == "1555") = 1) ∧
    (∀ c ∈ ["Ada", "Beth"].foldl (fun t n => upsert_contact t "1555" n)
        [⟨"1555", "Old"⟩, ⟨"1666", "Eve"⟩],
        c.phone = "1555" → c.name = ["Ada", "Beth"].getLastD "") := by
  have := upsert_contact_last_write_wins
    [⟨"1555", "Old"⟩, ⟨"1666", "Eve"⟩] "1555" ["Ada", "Beth"]
    (by decide) (by decide)
  exact ⟨by decide, by decide, this.1, this.2⟩

/-- C7.  The media relay fails fast with 500 and no upstream request
when the credential or sender number is missing; answers 502 when the
upstream connection itself fails; and passes a non-200 provider status
through with the provider body truncated to 500 characters. -/
theorem media_proxy_error_mapping (cfg : ProxyConfig)
    (upstream : String → Upstream) (media_identifier : String) :
    (proxyMisconfigured cfg = true →
      media_proxy cfg upstream media_identifier =
        (false, .httpError 500 "Media proxy misconfigured")) ∧
    (proxyMisconfigured cfg = false →
      upstream (mediaUrlFor ((cfg.sender_number).getD "")
          (unquote_plus media_identifier)) = .connectFail →
      media_proxy cfg upstream media_identifier =
        (true, .httpError 502 "Error fetching media")) ∧
    (∀ status ctype body, proxyMisconfigured cfg = false → status ≠ 200 →
      upstream (mediaUrlFor ((cfg.sender_number).getD "")
          (unquote_plus media_identifier)) = .respond status ctype body →
      media_proxy cfg upstream media_identifier =
        (true, .httpError status
          ("Infobip error: " ++ toString status ++ " " ++ body.take 500))) := by
  refine ⟨?_, ?_, ?_⟩
  · intro hmis
    simp [media_proxy, hmis]
  · intro hmis hup
    simp [media_proxy, hmis, hup]
  · intro status ctype body hmis hstatus hup
    simp [media_proxy, hmis, hup, hstatus]

/-- C7 witness: a relay without an API key answers 500 without calling
upstream, and a configured relay facing a 404 provider passes the 404
and the (short) body through. -/
theorem media_proxy_error_mapping_witness :
    proxyMisconfigured ⟨none, some "447700900000"⟩ = true ∧
    media_proxy ⟨none, some "447700900000"⟩ (fun _ => Upstream.connectFail)
        "abc" = (false, .httpError 500 "Media proxy misconfigured") ∧
    proxyMisconfigured ⟨some "KEY", some "447700900000"⟩ = false ∧
    (404 : Nat) ≠ 200 ∧
    media_proxy ⟨some "KEY", some "447700900000"⟩
        (fun _ => Upstream.respond 404 "text/plain" "nope") "abc" =
      (true, .httpError 404 ("Infobip error: " ++ toString (404 : Nat)
        ++ " " ++ ("nope" : String).take 500)) := by
  refine ⟨by decide, ?_, by decide, by decide, ?_⟩
  · exact (media_proxy_error_mapping ⟨none, some "447700900000"⟩
      (fun _ => Upstream.connectFail) "abc").1 (by decide)
  · exact (media_proxy_error_mapping ⟨some "KEY", some "447700900000"⟩
      (fun _ => Upstream.respond 404 "text/plain" "nope") "abc").2.2
      404 "text/plain" "nope" (by decide) (by decide) rfl

/-- C9.  `build_proxy_url` returns an empty string for an empty
identifier; returns the identifier verbatim when the caller passes
direction `"outbound"` or the stored identifier is already a
fully-qualified URL (starts with `"http"`); and otherwise (non-empty
provider-opaque identifier, direction `"inbound"`) routes it through
the media proxy, percent-encoded with `quote_plus`. -/
theorem build_proxy_url_cases (base media_identifier direction : String) :
    (media_identifier = "" →
      build_proxy_url base media_identifier direction = "") ∧
    (media_identifier ≠ "" →
      (direction = "outbound" ∨ pyStartsWith media_identifier "http" = true) →
      build_proxy_url base media_identifier direction = media_identifier) ∧
    (media_identifier ≠ "" → direction = "inbound" →
      pyStartsWith media_identifier "http" = false →
      build_proxy_url base media_identifier direction =
        base ++ "/media-proxy/" ++ quote_plus media_identifier) := by
  refine ⟨?_, ?_, ?_⟩
  · intro he
    simp [build_proxy_url, he]
  · intro hne hcase
    rcases hcase with hdir | hurl
    · simp [build_proxy_url, hne, hdir]
    · simp [build_proxy_url, hne, hurl]
  · intro hne hdir hurl
    subst hdir
    simp [build_proxy_url, hne, hurl]

/-- C9 witness: an outbound full URL comes back verbatim; an inbound
opaque identifier with a space is proxied percent-encoded. -/
theorem build_proxy_url_cases_witness :
    ("https://cdn.example/v.mp4" : String) ≠ "" ∧
    build_proxy_url "https://relay.example" "https://cdn.example/v.mp4"
        "outbound" = "https://cdn.example/v.mp4" ∧
    ("ab c" : String) ≠ "" ∧
    pyStartsWith "ab c" "http" = false ∧
    build_proxy_url "https://relay.example" "ab c" "inbound" =
      "https://relay.example/media-proxy/ab+c" := by
  refine ⟨by decide, ?_, by decide, by decide, ?_⟩
  · exact (build_proxy_url_cases "https://relay.example"
      "https://cdn.example/v.mp4" "outbound").2.1 (by decide) (Or.inl rfl)
  · have h := (build_proxy_url_cases "https://relay.example" "ab c"
      "inbound").2.2 (by decide) rfl (by decide)
    rw [h]
    decide

/-! ## Round-trip lemmas for `quote_plus` / `unquote_plus` -/

lemma hexVal_hexDigit (n : Nat) (h : n < 16) : hexVal (hexDigit n) = some n := by
  unfold hexDigit hexVal
  by_cases h10 : n < 10
  · rw [if_pos h10, if_pos (by omega : 48 ≤ 48 + n ∧ 48 + n ≤ 57)]
    congr 1
    omega
  · rw [if_neg h10, if_neg (by omega : ¬(48 ≤ 55 + n ∧ 55 + n ≤ 57)),
      if_pos (by omega : 65 ≤ 55 + n ∧ 55 + n ≤ 70)]
    congr 1
    omega

lemma isSafeByte_facts (b : Nat) (h : isSafeByte b = true) :
    b ≠ 37 ∧ b ≠ 43 ∧ b ≠ 32 := by
  simp only [isSafeByte, Bool.or_eq_true, Bool.and_eq_true, decide_eq_true_eq]
    at h
  omega

lemma hexDigit_ne (n : Nat) (h : n < 16) : hexDigit n ≠ 43 ∧ hexDigit n ≠ 37 := by
  unfold hexDigit
  by_cases h10 : n < 10 <;> simp [h10] <;> omega

lemma plusToSpace_cons (x : Nat) (t : List Nat) :
    plusToSpace (x :: t) = (if x = 43 then 32 else x) :: plusToSpace t := by
  simp [plusToSpace]

lemma pctDecode_cons_ne (c : Nat) (t : List Nat) (hc : c ≠ 37) :
    pctDecode (c :: t) = c :: pctDecode t := by
  simp [pctDecode, hc]

lemma pctDecode_pct (h1 h2 : Nat) (t : List Nat) (a b : Nat)
    (ha : hexVal h1 = some a) (hb : hexVal h2 = some b) :
    pctDecode (37 :: h1 :: h2 :: t) = (16 * a + b) :: pctDecode t := by
  simp [pctDecode, ha, hb]

/-- Decoding undoes encoding byte by byte. -/
lemma pctDecode_plusToSpace_quoteByte (b : Nat) (hb : b < 256) (t : List Nat) :
    pctDecode (plusToSpace (quoteByte b ++ t)) = b :: pctDecode (plusToSpace t) := by
  unfold quoteByte
  by_cases hs : isSafeByte b = true
  · rw [if_pos hs]
    obtain ⟨h37, h43, _⟩ := isSafeByte_facts b hs
    rw [List.cons_append, List.nil_append, plusToSpace_cons, if_neg h43,
      pctDecode_cons_ne b _ h37]
  · rw [if_neg hs]
    by_cases h32 : b = 32
    · rw [if_pos h32, List.cons_append, List.nil_append, plusToSpace_cons,
        if_pos rfl, pctDecode_cons_ne 32 _ (by omega), h32]
    · rw [if_neg h32]
      have hd1 := hexDigit_ne (b / 16) (by omega)
      have hd2 := hexDigit_ne (b % 16) (by omega)
      rw [List.cons_append, List.cons_append, List.cons_append,
        List.nil_append, plusToSpace_cons, plusToSpace_cons, plusToSpace_cons,
        if_neg (by omega : (37 : Nat) ≠ 43), if_neg hd1.1, if_neg hd2.1,
        pctDecode_pct _ _ _ _ _ (hexVal_hexDigit _ (by omega))
          (hexVal_hexDigit _ (by omega))]
      congr 1
      omega

lemma unquote_quote_bytes_aux (bs : List Nat) (h : ∀ b ∈ bs, b < 256) :
    unquote_plus_bytes (quote_plus_bytes bs) = bs := by
  unfold unquote_plus_bytes quote_plus_bytes
  induction bs with
  | nil => simp [plusToSpace, pctDecode]
  | cons b rest ih =>
    rw [List.flatMap_cons,
      pctDecode_plusToSpace_quoteByte b (h b (List.mem_cons_self b rest)) _,
      ih fun x hx => h x (List.mem_cons_of_mem b hx)]

/-- C10.  Encode/decode round-trip between the two components: for
every non-empty inbound media identifier (given by its UTF-8 bytes, all
`< 256`) that does not begin with `"http"`, the identifier segment that
`build_proxy_url` produces with `quote_plus`, when decoded with
`unquote_plus` in `media_proxy`, is exactly the original identifier. -/
theorem quote_unquote_roundtrip (bs : List Nat) (hbytes : ∀ b ∈ bs, b < 256)
    (hne : bs ≠ []) (hhttp : bs.take 4 ≠ [104, 116, 116, 112]) :
    unquote_plus_bytes (quote_plus_bytes bs) = bs :=
  unquote_quote_bytes_aux bs hbytes

/-- C10 witness: the bytes of `"a b+c/%x"`. -/
theorem quote_unquote_roundtrip_witness :
    (∀ b ∈ [97, 32, 98, 43, 99, 47, 37, 120], b < 256) ∧
    ([97, 32, 98, 43, 99, 47, 37, 120] : List Nat) ≠ [] ∧
    ([97, 32, 98, 43, 99, 47, 37, 120] : List Nat).take 4 ≠
      [104, 116, 116, 112] ∧
    unquote_plus_bytes (quote_plus_bytes [97, 32, 98, 43, 99, 47, 37, 120]) =
      [97, 32, 98, 43, 99, 47, 37, 120] := by
  refine ⟨by decide, by decide, by decide, ?_⟩
  exact quote_unquote_roundtrip [97, 32, 98, 43, 99, 47, 37, 120]
    (by decide) (by decide) (by decide)

/-! ## Ordering lemmas for `fetch_messages` -/

lemma pairwise_lt_of_le_nodup (l : List MsgRow)
    (hle : l.Pairwise fun a b => a.timestamp ≤ b.timestamp)
    (hnd : (l.map MsgRow.timestamp).Nodup) :
    l.Pairwise fun a b => a.timestamp < b.timestamp := by
  have hne : l.Pairwise fun a b => a.timestamp ≠ b.timestamp :=
    List.pairwise_map.mp hnd
  exact (hle.and hne).imp fun h => lt_of_le_of_ne h.1 h.2

/-- C5 counterexample: with two rows sharing one timestamp, the list
holding the later-inserted row (id 2) first satisfies everything the
query `SELECT * FROM messages ORDER BY timestamp ASC` guarantees, yet
is not ordered by id on the tie — the query has no id tiebreak, so the
claimed ordering is not ensured. -/
theorem fetch_messages_no_id_tiebreak :
    fetch_messages_post
      [⟨1, "p", "a", "inbound", 5, "text", "", ""⟩,
       ⟨2, "p", "b", "inbound", 5, "text", "", ""⟩] "All"
      [⟨2, "p", "b", "inbound", 5, "text", "", ""⟩,
       ⟨1, "p", "a", "inbound", 5, "text", "", ""⟩] ∧
    ¬ ([⟨2, "p", "b", "inbound", 5, "text", "", ""⟩,
        ⟨1, "p", "a", "inbound", 5, "text", "", ""⟩] : List MsgRow).Pairwise
        (fun a b => a.timestamp < b.timestamp ∨
          (a.timestamp = b.timestamp ∧ a.id ≤ b.id)) := by
  constructor
  · refine ⟨List.Perm.swap _ _ _, ?_⟩
    decide
  · intro h
    have := List.rel_of_pairwise_cons h (List.mem_singleton.mpr rfl)
    simp only [] at this
    rcases this with hlt | ⟨_, hid⟩
    · exact absurd hlt (by decide)
    · exact absurd hid (by decide)

/-- C5 (amended).  Both query results are sorted by timestamp and hold
exactly the selected rows; when all timestamps in the table are
distinct, the result is uniquely determined and the per-phone result is
exactly the `"All"` result filtered to that phone, in the same relative
order.  For equal timestamps the query imposes no id tiebreak (see the
counterexample). -/
theorem fetch_messages_ordering (table : List MsgRow) (phone : String)
    (outAll outP : List MsgRow)
    (hAll : fetch_messages_post table "All" outAll)
    (hP : fetch_messages_post table phone outP)
    (hphone : phone ≠ "All")
    (hdist : (table.map MsgRow.timestamp).Nodup) :
    outAll.Perm table ∧
    outP.Pairwise (fun a b => a.timestamp ≤ b.timestamp) ∧
    outP = outAll.filter fun r => r.phone == phone := by
  obtain ⟨hPermAll, hSortAll⟩ := hAll
  obtain ⟨hPermP, hSortP⟩ := hP
  rw [show selectedRows table "All" = table by simp [selectedRows]] at hPermAll
  rw [show selectedRows table phone = table.filter (fun r => r.phone == phone)
    from by simp [selectedRows, hphone]] at hPermP
  refine ⟨hPermAll, hSortP, ?_⟩
  have hfAll : (outAll.filter fun r => r.phone == phone).Perm
      (table.filter fun r => r.phone == phone) :=
    hPermAll.filter _
  have hperm : outP.Perm (outAll.filter fun r => r.phone == phone) :=
    hPermP.trans hfAll.symm
  have hndAll : (outAll.map MsgRow.timestamp).Nodup :=
    ((hPermAll.map MsgRow.timestamp).nodup_iff).mpr hdist
  have hndFAll : ((outAll.filter fun r => r.phone == phone).map
      MsgRow.timestamp).Nodup :=
    List.Nodup.sublist ((List.filter_sublist _).map MsgRow.timestamp) hndAll
  have hndP : (outP.map MsgRow.timestamp).Nodup :=
    ((hperm.map MsgRow.timestamp).nodup_iff).mpr hndFAll
  have hSortFAll : (outAll.filter fun r => r.phone == phone).Pairwise
      (fun a b => a.timestamp ≤ b.timestamp) :=
    List.Pairwise.sublist (List.filter_sublist _) hSortAll
  have h1 := pairwise_lt_of_le_nodup _ hSortP hndP
  have h2 := pairwise_lt_of_le_nodup _ hSortFAll hndFAll
  haveI : IsAntisymm MsgRow (fun a b => a.timestamp < b.timestamp) :=
    ⟨fun _ _ hab hba => absurd hba (Nat.lt_asymm hab)⟩
  exact List.eq_of_perm_of_sorted hperm h1 h2

/-- C5 witness: a three-row table with distinct timestamps, the unique
`"All"` result and the unique per-phone result. -/
theorem fetch_messages_ordering_witness :
    fetch_messages_post
      [⟨1, "p", "a", "inbound", 1, "text", "", ""⟩,
       ⟨2, "q", "b", "inbound", 2, "text", "", ""⟩,
       ⟨3, "p", "c", "outbound", 3, "text", "", ""⟩] "All"
      [⟨1, "p", "a", "inbound", 1, "text", "", ""⟩,
       ⟨2, "q", "b", "inbound", 2, "text", "", ""⟩,
       ⟨3, "p", "c", "outbound", 3, "text", "", ""⟩] ∧
    fetch_messages_post
      [⟨1, "p", "a", "inbound", 1, "text", "", ""⟩,
       ⟨2, "q", "b", "inbound", 2, "text", "", ""⟩,
       ⟨3, "p", "c", "outbound", 3, "text", "", ""⟩] "p"
      [⟨1, "p", "a", "inbound", 1, "text", "", ""⟩,
       ⟨3, "p", "c", "outbound", 3, "text", "", ""⟩] ∧
    ("p" : String) ≠ "All" ∧
    (([⟨1, "p", "a", "inbound", 1, "text", "", ""⟩,
       ⟨2, "q", "b", "inbound", 2, "text", "", ""⟩,
       ⟨3, "p", "c", "outbound", 3, "text", "", ""⟩] : List MsgRow).map
       MsgRow.timestamp).Nodup ∧
    ([⟨1, "p", "a", "inbound", 1, "text", "", ""⟩,
      ⟨3, "p", "c", "outbound", 3, "text", "", ""⟩] : List MsgRow) =
      ([⟨1, "p", "a", "inbound", 1, "text", "", ""⟩,
        ⟨2, "q", "b", "inbound", 2, "text", "", ""⟩,
        ⟨3, "p", "c", "outbound", 3, "text", "", ""⟩] : List MsgRow).filter
        fun r => r.phone == "p" := by
  refine ⟨by decide, by decide, by decide, by decide, ?_⟩
  have h := fetch_messages_ordering
    [⟨1, "p", "a", "inbound", 1, "text", "", ""⟩,
     ⟨2, "q", "b", "inbound", 2, "text", "", ""⟩,
     ⟨3, "p", "c", "outbound", 3, "text", "", ""⟩] "p"
    [⟨1, "p", "a", "inbound", 1, "text", "", ""⟩,
     ⟨2, "q", "b", "inbound", 2, "text", "", ""⟩,
     ⟨3, "p", "c", "outbound", 3, "text", "", ""⟩]
    [⟨1, "p", "a", "inbound", 1, "text", "", ""⟩,
     ⟨3, "p", "c", "outbound", 3, "text", "", ""⟩]
    (by decide) (by decide) (by decide) (by decide)
  exact h.2.2

/-- C3 counterexample: with a dead connection — and a live one freely
available, `(Conn.mk true).alive` — the webhook store operations
(`insert_message` / `upsert_contact`, which run their SQL on
the connection they are handed with no probe) surface a
stale-connection error: not every Store operation reconnects. -/
theorem ws_store_op_stale_error :
    ws_store_op ⟨false⟩ = .error .staleConnection ∧
    (Conn.mk true).alive = true := by
  exact ⟨rfl, rfl⟩

/-- C3 (amended).  Only the dashboard store operations probe the
connection; their fallback is the `st.cache_resource`-memoised
`get_db_connection`, so a fresh connection is obtained only when the
cache is empty (e.g. just cleared by the reset button) — with a dead
cached connection the stale error still reaches the caller — and the
webhook `insert_message`/`upsert_contact` never reconnect at
all. -/
theorem store_reconnect_behavior (conn fresh : Conn) (cache : Option Conn) :
    (conn.alive = true → app3_store_op conn cache fresh = .ok ()) ∧
    (conn.alive = false → cache = none → fresh.alive = true →
      app3_store_op conn cache fresh = .ok ()) ∧
    (conn.alive = false → cache = some ⟨false⟩ →
      app3_store_op conn cache fresh = .error .staleConnection) ∧
    (conn.alive = false → ws_store_op conn = .error .staleConnection) := by
  refine ⟨?_, ?_, ?_, ?_⟩
  · intro h
    simp [app3_store_op, ensure_connection, execOn, h]
  · intro h hc hf
    simp [app3_store_op, ensure_connection, get_db_connection, execOn,
      h, hc, hf]
  · intro h hc
    simp [app3_store_op, ensure_connection, get_db_connection, execOn,
      h, hc]
  · intro h
    simp [ws_store_op, execOn, h]

/-- C3 witness: a dead handle with an empty cache reconnects and
succeeds; a dead handle never helps the webhook operations. -/
theorem store_reconnect_behavior_witness :
    (Conn.mk false).alive = false ∧
    app3_store_op ⟨false⟩ none ⟨true⟩ = .ok () ∧
    ws_store_op ⟨false⟩ = .error .staleConnection := by
  refine ⟨rfl, ?_, ?_⟩
  · exact (store_reconnect_behavior ⟨false⟩ ⟨true⟩ none).2.1 rfl rfl rfl
  · exact (store_reconnect_behavior ⟨false⟩ ⟨true⟩ none).2.2.2 rfl

/-- C4: the normalizer is not exception-free on malformed sub-fields.
Exactly the shapes the claim lists make it raise `AttributeError`: a
non-dict `contact` (string or null) makes `.get("name")` fail, a
non-string `contact.name` makes `.strip()` fail, and a truthy non-dict
`message` makes `.get("type")` fail. -/
theorem normalizer_raises_on_malformed_subfields :
    parse_infobip_message (Json.obj [("from", Json.str "15551234567"),
      ("contact", Json.str "Ada")]) = .error .attributeError ∧
    parse_infobip_message (Json.obj [("from", Json.str "15551234567"),
      ("contact", Json.null)]) = .error .attributeError ∧
    parse_infobip_message (Json.obj [("from", Json.str "15551234567"),
      ("contact", Json.obj [("name", Json.num 5)])]) =
      .error .attributeError ∧
    parse_infobip_message (Json.obj [("from", Json.str "15551234567"),
      ("message", Json.str "hello")]) = .error .attributeError := by
  exact ⟨rfl, rfl, rfl, rfl⟩

/-- C2 counterexample: an event with the unrecognized provider type
`"STICKER"` is normalized to exactly the same tuple as the same event
with type `"TEXT"` — `msg_type` becomes `"text"` and no field of the
output retains the original tag, so the unrecognized type is silently
coerced to text, not preserved as typed metadata. -/
theorem unrecognized_type_coerced_to_text :
    parse_infobip_message (Json.obj [("from", Json.str "15551234567"),
      ("message", Json.obj [("type", Json.str "STICKER"),
        ("text", Json.str "hi")])]) =
    parse_infobip_message (Json.obj [("from", Json.str "15551234567"),
      ("message", Json.obj [("type", Json.str "TEXT"),
        ("text", Json.str "hi")])]) ∧
    (match parse_infobip_message (Json.obj [("from", Json.str "15551234567"),
      ("message", Json.obj [("type", Json.str "STICKER"),
        ("text", Json.str "hi")])]) with
     | .ok (some p) => p.msg_type
     | _ => "") = "text" := by
  exact ⟨rfl, rfl⟩

/-- C2 (amended).  An event whose type tag uppercases to something that
is neither `"TEXT"` nor a media tag is handled by the TEXT fallback
branch: the result has `msg_type = "text"`, an empty media identifier
and caption, and its body is extracted from the `text` field — the
unrecognized tag is dropped, not preserved. -/
theorem unrecognized_type_treated_as_text (msg content : Json) (p : Parsed)
    (tag : String)
    (hp : parse_infobip_message msg = .ok (some p))
    (hc : contentOf msg = .ok content)
    (ht : typeTagOf content = .ok tag)
    (htext : tag ≠ "TEXT") (hmedia : tag ∉ mediaTags) :
    p.msg_type = "text" ∧ p.media_identifier = Json.str "" ∧
    p.caption = Json.str "" ∧ textFrom content = .ok p.text := by
  unfold parse_infobip_message at hp
  rcases hfrom : msg.getD "from" .null with e | sender
  · rw [hfrom] at hp
    simp at hp
  · rw [hfrom] at hp
    by_cases hs : sender.truthy = true
    · simp only [hs, Bool.not_true, Bool.false_eq_true, if_false] at hp
      rcases hcn : contactNameOf msg sender with e | cname
      · rw [hcn] at hp
        simp at hp
      · rw [hcn] at hp
        simp only [] at hp
        rw [hc] at hp
        simp only [] at hp
        rw [ht] at hp
        simp only [] at hp
        rw [if_neg htext, if_neg hmedia] at hp
        rcases htf : textFrom content with e | text
        · rw [htf] at hp
          simp at hp
        · rw [htf] at hp
          simp only [] at hp
          have hpp : (⟨text, "text", .str "", .str "", sender, cname⟩ :
              Parsed) = p := by
            simpa using hp
          subst hpp
          exact ⟨rfl, rfl, rfl, by simpa using htf⟩
    · simp only [Bool.not_eq_true] at hs
      simp only [hs, Bool.not_false, if_true] at hp
      simp at hp

/-- C2 witness: the `"STICKER"` event, its content, tag and normalized
tuple, run through the amended theorem. -/
theorem unrecognized_type_treated_as_text_witness :
    parse_infobip_message (Json.obj [("from", Json.str "15551234567"),
      ("message", Json.obj [("type", Json.str "STICKER"),
        ("text", Json.str "hi")])]) =
      .ok (some ⟨.str "hi", "text", .str "", .str "", .str "15551234567",
        .str "15551234567"⟩) ∧
    contentOf (Json.obj [("from", Json.str "15551234567"),
      ("message", Json.obj [("type", Json.str "STICKER"),
        ("text", Json.str "hi")])]) =
      .ok (Json.obj [("type", Json.str "STICKER"), ("text", Json.str "hi")]) ∧
    typeTagOf (Json.obj [("type", Json.str "STICKER"),
      ("text", Json.str "hi")]) = .ok "STICKER" ∧
    ("STICKER" : String) ≠ "TEXT" ∧
    ("STICKER" : String) ∉ mediaTags ∧
    ((⟨.str "hi", "text", .str "", .str "", .str "15551234567",
        .str "15551234567"⟩ : Parsed).msg_type = "text" ∧
      (⟨.str "hi", "text", .str "", .str "", .str "15551234567",
        .str "15551234567"⟩ : Parsed).media_identifier = Json.str "" ∧
      (⟨.str "hi", "text", .str "", .str "", .str "15551234567",
        .str "15551234567"⟩ : Parsed).caption = Json.str "" ∧
      textFrom (Json.obj [("type", Json.str "STICKER"),
        ("text", Json.str "hi")]) =
        .ok (⟨.str "hi", "text", .str "", .str "", .str "15551234567",
          .str "15551234567"⟩ : Parsed).text) := by
  refine ⟨rfl, rfl, rfl, by decide, by decide, ?_⟩
  exact unrecognized_type_treated_as_text
    (Json.obj [("from", Json.str "15551234567"),
      ("message", Json.obj [("type", Json.str "STICKER"),
        ("text", Json.str "hi")])])
    (Json.obj [("type", Json.str "STICKER"), ("text", Json.str "hi")])
    ⟨.str "hi", "text", .str "", .str "", .str "15551234567",
      .str "15551234567"⟩
    "STICKER" rfl rfl rfl (by decide) (by decide)

/-- `d.get(k, default)` on an actual dict, via association-list
lookup. -/
lemma Json_getD_obj (kvs : List (String × Json)) (k : String) (d : Json) :
    (Json.obj kvs).getD k d = .ok ((kvs.lookup k).getD d) := by
  unfold Json.getD
  cases h : kvs.lookup k <;> simp [h]

/-- C6.  For every media-type event (tag in IMAGE/VIDEO/DOCUMENT/VOICE/
AUDIO, case-insensitively), the normalizer resolves `mediaIdentifier`
by precedence: the explicit media-id field (`mediaId`, else `id`) when
truthy, else the last path segment of the media-URL field (`url`, else
`mediaUrl`) when truthy, else the empty string; in particular an event
with no media id and a string media-URL yields the last path segment
of that URL. -/
theorem media_identifier_precedence (msg content : Json) (p : Parsed)
    (tag : String)
    (hp : parse_infobip_message msg = .ok (some p))
    (hc : contentOf msg = .ok content)
    (ht : typeTagOf content = .ok tag)
    (hmedia : tag ∈ mediaTags) :
    p.msg_type = pyLower tag ∧
    mediaIdentifierFrom content = .ok p.media_identifier ∧
    (∀ ckvs, content = Json.obj ckvs →
      p.media_identifier =
        (if (pyOr ((ckvs.lookup "mediaId").getD .null)
              ((ckvs.lookup "id").getD .null)).truthy then
          Json.str (pyStr (pyOr ((ckvs.lookup "mediaId").getD .null)
            ((ckvs.lookup "id").getD .null)))
        else if (pyOr ((ckvs.lookup "url").getD .null)
              ((ckvs.lookup "mediaUrl").getD .null)).truthy then
          extract_media_id_from_url (pyOr ((ckvs.lookup "url").getD .null)
            ((ckvs.lookup "mediaUrl").getD .null))
        else Json.str "")) ∧
    (∀ ckvs u, content = Json.obj ckvs →
      (pyOr ((ckvs.lookup "mediaId").getD .null)
        ((ckvs.lookup "id").getD .null)).truthy = false →
      pyOr ((ckvs.lookup "url").getD .null)
        ((ckvs.lookup "mediaUrl").getD .null) = Json.str u →
      u ≠ "" →
      p.media_identifier = Json.str (extract_media_id_from_url_str u)) := by
  have htext : tag ≠ "TEXT" := by
    simp only [mediaTags, List.mem_cons, List.mem_singleton] at hmedia
    rcases hmedia with rfl | rfl | rfl | rfl | rfl | h <;> first | decide | simp at h
  unfold parse_infobip_message at hp
  rcases hfrom : msg.getD "from" .null with e | sender
  · rw [hfrom] at hp
    simp at hp
  · rw [hfrom] at hp
    by_cases hs : sender.truthy = true
    · simp only [hs, Bool.not_true, Bool.false_eq_true, if_false] at hp
      rcases hcn : contactNameOf msg sender with e | cname
      · rw [hcn] at hp
        simp at hp
      · rw [hcn] at hp
        simp only [] at hp
        rw [hc] at hp
        simp only [] at hp
        rw [ht] at hp
        simp only [] at hp
        rw [if_neg htext, if_pos hmedia] at hp
        rcases hcap : content.getD "caption" (.str "") with e | capJ
        · rw [hcap] at hp
          simp at hp
        · rw [hcap] at hp
          simp only [] at hp
          rcases hmid : mediaIdentifierFrom content with e | mi
          · rw [hmid] at hp
            simp at hp
          · rw [hmid] at hp
            simp only [] at hp
            have hpp : (⟨.str "", pyLower tag, mi, pyOr capJ (.str ""),
                sender, cname⟩ : Parsed) = p := by
              simpa using hp
            subst hpp
            refine ⟨rfl, by simpa using hmid, ?_, ?_⟩
            · intro ckvs hck
              subst hck
              simp only [mediaIdentifierFrom, Json_getD_obj] at hmid
              simpa using hmid.symm
            · intro ckvs u hck hmidf hmurl hu
              subst hck
              simp only [mediaIdentifierFrom, Json_getD_obj] at hmid
              rw [hmurl] at hmid
              have htr : (Json.str u).truthy = true := by
                simp [Json.truthy, hu]
              simp only [hmidf, htr, Bool.false_eq_true, if_false, if_true,
                extract_media_id_from_url] at hmid
              simpa using hmid.symm
    · simp only [Bool.not_eq_true] at hs
      simp only [hs, Bool.not_false, if_true] at hp
      simp at hp

/-- C6 witness: an `IMAGE` event carrying only a `mediaUrl` resolves
`mediaIdentifier` to the last path segment of that URL. -/
theorem media_identifier_precedence_witness :
    parse_infobip_message (Json.obj [("from", Json.str "1555"),
      ("message", Json.obj [("type", Json.str "IMAGE"),
        ("mediaUrl", Json.str
          "https://api.infobip.com/whatsapp/1/media/abc123.jpg")])]) =
      .ok (some ⟨.str "", "image", .str "abc123.jpg", .str "",
        .str "1555", .str "1555"⟩) ∧
    extract_media_id_from_url_str
      "https://api.infobip.com/whatsapp/1/media/abc123.jpg" = "abc123.jpg" ∧
    (⟨.str "", "image", .str "abc123.jpg", .str "", .str "1555",
      .str "1555"⟩ : Parsed).media_identifier =
      Json.str (extract_media_id_from_url_str
        "https://api.infobip.com/whatsapp/1/media/abc123.jpg") := by
  refine ⟨rfl, rfl, ?_⟩
  exact (media_identifier_precedence
    (Json.obj [("from", Json.str "1555"),
      ("message", Json.obj [("type", Json.str "IMAGE"),
        ("mediaUrl", Json.str
          "https://api.infobip.com/whatsapp/1/media/abc123.jpg")])])
    (Json.obj [("type", Json.str "IMAGE"),
      ("mediaUrl", Json.str
        "https://api.infobip.com/whatsapp/1/media/abc123.jpg")])
    ⟨.str "", "image", .str "abc123.jpg", .str "", .str "1555",
      .str "1555"⟩
    "IMAGE" rfl rfl rfl (by decide)).2.2.2
    [("type", Json.str "IMAGE"),
     ("mediaUrl", Json.str
       "https://api.infobip.com/whatsapp/1/media/abc123.jpg")]
    "https://api.infobip.com/whatsapp/1/media/abc123.jpg"
    rfl rfl rfl (by decide)

/-- The per-event loop counts exactly the events the normalizer
accepts, provided none raises. -/
lemma inboundLoop_ok (msgs : List Json) (n : Nat)
    (hok : ∀ m ∈ msgs, ∃ r, parse_infobip_message m = .ok r) :
    inboundLoop msgs n = .ok (n + msgs.countP parsedSome) := by
  induction msgs generalizing n with
  | nil => simp [inboundLoop]
  | cons m rest ih =>
    obtain ⟨r, hr⟩ := hok m (List.mem_cons_self m rest)
    have hrest := fun x hx => hok x (List.mem_cons_of_mem m hx)
    cases r with
    | none =>
      have hps : parsedSome m = false := by simp [parsedSome, hr]
      have hc : List.countP parsedSome (m :: rest) =
          List.countP parsedSome rest := by
        simp [List.countP_cons, hps]
      rw [show inboundLoop (m :: rest) n = inboundLoop rest n from by
        simp [inboundLoop, hr]]
      rw [ih n hrest, hc]
    | some p =>
      have hps : parsedSome m = true := by simp [parsedSome, hr]
      have hc : List.countP parsedSome (m :: rest) =
          List.countP parsedSome rest + 1 := by
        simp [List.countP_cons, hps]
      rw [show inboundLoop (m :: rest) n = inboundLoop rest (n + 1) from by
        simp [inboundLoop, hr]]
      rw [ih (n + 1) hrest, hc]
      congr 1
      omega

lemma parse_obj_some_iff (kvs : List (String × Json)) (r : Option Parsed)
    (hr : parse_infobip_message (Json.obj kvs) = .ok r) :
    r.isSome = ((kvs.lookup "from").getD .null).truthy := by
  unfold parse_infobip_message at hr
  rw [Json_getD_obj] at hr
  simp only [] at hr
  by_cases hs : ((kvs.lookup "from").getD .null).truthy = true
  · simp only [hs, Bool.not_true, Bool.false_eq_true, if_false] at hr
    rcases hcn : contactNameOf (Json.obj kvs)
        ((kvs.lookup "from").getD .null) with e | cname <;> rw [hcn] at hr
    · simp at hr
    · simp only [] at hr
      rcases hco : contentOf (Json.obj kvs) with e | content <;>
        rw [hco] at hr
      · simp at hr
      · simp only [] at hr
        rcases ht : typeTagOf content with e | tagv <;> rw [ht] at hr
        · simp at hr
        · simp only [] at hr
          by_cases htx : tagv = "TEXT"
          · rw [if_pos htx] at hr
            rcases htf : textFrom content with e | txt <;> rw [htf] at hr
            · simp at hr
            · simp only [] at hr
              injection hr with h
              subst h
              simp [hs]
          · rw [if_neg htx] at hr
            by_cases hmed : tagv ∈ mediaTags
            · rw [if_pos hmed] at hr
              rcases hcap : content.getD "caption" (.str "") with e | capJ <;>
                rw [hcap] at hr
              · simp at hr
              · simp only [] at hr
                rcases hmi : mediaIdentifierFrom content with e | mi <;>
                  rw [hmi] at hr
                · simp at hr
                · simp only [] at hr
                  injection hr with h
                  subst h
                  simp [hs]
            · rw [if_neg hmed] at hr
              rcases htf : textFrom content with e | txt <;> rw [htf] at hr
              · simp at hr
              · simp only [] at hr
                injection hr with h
                subst h
                simp [hs]
  · simp only [Bool.not_eq_true] at hs
    simp only [hs, Bool.not_false, if_true] at hr
    injection hr with h
    subst h
    simp [hs]

/-- C1 (amended).  For a request body that is a JSON object whose batch
(`results`, else `messages`) resolves to a list of events none of which
makes the normalizer raise, the endpoint answers HTTP success with
`received` equal to the number of events the normalizer accepts — for
object events, exactly those whose `from` field is truthy (present and
non-empty); an empty or missing batch array is the zero-event success.
Bodies outside that shape (see the counterexample) crash the handler
instead. -/
theorem inbound_received_counts_senders (payload : Json) (msgs : List Json)
    (hbatch : batchOf payload = .ok msgs)
    (hok : ∀ m ∈ msgs, ∃ r, parse_infobip_message m = .ok r) :
    inboundValid payload = .ok (msgs.countP parsedSome) ∧
    (∀ m ∈ msgs, ∀ kvs, m = Json.obj kvs →
      parsedSome m = ((kvs.lookup "from").getD .null).truthy) := by
  constructor
  · unfold inboundValid
    rw [hbatch]
    simp only []
    simpa using inboundLoop_ok msgs 0 hok
  · intro m hm kvs hk
    subst hk
    obtain ⟨r, hr⟩ := hok _ hm
    have hiff := parse_obj_some_iff kvs r hr
    have hps : parsedSome (Json.obj kvs) = r.isSome := by
      cases r <;> simp [parsedSome, hr]
    rw [hps, hiff]

/-- C1 counterexample: the body `[]` is valid JSON, yet the handler
calls `.get` on it outside the `try`, so the request dies with an
unhandled `AttributeError` (HTTP 500), not a success response — the
claim does not hold for every valid-JSON body. -/
theorem inbound_valid_json_not_success :
    inboundValid (Json.arr []) = .serverError .attributeError := by
  exact rfl

/-- C1 witness: a two-event batch — one event with a sender, one
without — yields success with `received = 1`. -/
theorem inbound_received_counts_senders_witness :
    batchOf (Json.obj [("results", Json.arr
      [Json.obj [("from", Json.str "15551234567"),
        ("message", Json.obj [("type", Json.str "TEXT"),
          ("text", Json.obj [("body", Json.str "hi")])])],
       Json.obj [("x", Json.null)]])]) =
      .ok [Json.obj [("from", Json.str "15551234567"),
        ("message", Json.obj [("type", Json.str "TEXT"),
          ("text", Json.obj [("body", Json.str "hi")])])],
        Json.obj [("x", Json.null)]] ∧
    inboundValid (Json.obj [("results", Json.arr
      [Json.obj [("from", Json.str "15551234567"),
        ("message", Json.obj [("type", Json.str "TEXT"),
          ("text", Json.obj [("body", Json.str "hi")])])],
       Json.obj [("x", Json.null)]])]) =
      .ok ([Json.obj [("from", Json.str "15551234567"),
        ("message", Json.obj [("type", Json.str "TEXT"),
          ("text", Json.obj [("body", Json.str "hi")])])],
        Json.obj [("x", Json.null)]].countP parsedSome) ∧
    ([Json.obj [("from", Json.str "15551234567"),
        ("message", Json.obj [("type", Json.str "TEXT"),
          ("text", Json.obj [("body", Json.str "hi")])])],
      Json.obj [("x", Json.null)]].countP parsedSome) = 1 := by
  refine ⟨rfl, ?_, rfl⟩
  exact (inbound_received_counts_senders
    (Json.obj [("results", Json.arr
      [Json.obj [("from", Json.str "15551234567"),
        ("message", Json.obj [("type", Json.str "TEXT"),
          ("text", Json.obj [("body", Json.str "hi")])])],
       Json.obj [("x", Json.null)]])])
    [Json.obj [("from", Json.str "15551234567"),
      ("message", Json.obj [("type", Json.str "TEXT"),
        ("text", Json.obj [("body", Json.str "hi")])])],
     Json.obj [("x", Json.null)]]
    rfl
    (by
      intro m hm
      simp only [List.mem_cons, List.not_mem_nil, or_false] at hm
      rcases hm with rfl | rfl
      · exact ⟨some ⟨.str "hi", "text", .str "", .str "",
          .str "15551234567", .str "15551234567"⟩, rfl⟩
      · exact ⟨none, rfl⟩)).1
